import Mathlib

/-
Shallow embedding of the il0373 e-paper display driver (Rust crate) and a
verification of its natural-language specification.

Machine integers (u8/u16/u32) are modelled as `Nat`; wrapping is written
explicitly with `% 2^w` at the places where the Rust code can overflow, and
is omitted where surrounding bounds make overflow impossible.  A Rust panic
(slice index out of range, failed `assert!`) is modelled as `Option.none`.
A fallible transport call is modelled with `Except`.
-/

/-- color.rs: tri-state pixel value.  The driver never produces a fourth state. -/
inductive Color
  | Black
  | White
  | Red
deriving DecidableEq, Repr

/-- display.rs: physical rotation of the display relative to native orientation. -/
inductive Rotation
  | Rotate0
  | Rotate90
  | Rotate180
  | Rotate270
deriving DecidableEq, Repr

/-- display.rs: maximum number of rows supported by the controller. -/
def MAX_GATE_OUTPUTS : Nat := 296

/-- display.rs: maximum number of columns supported by the controller. -/
def MAX_SOURCE_OUTPUTS : Nat := 160

/-- display.rs: dimensions of the display (`rows : u16`, `cols : u8`). -/
structure Dimensions where
  rows : Nat
  cols : Nat
deriving DecidableEq, Repr

/-- command.rs: panel resolution class. -/
inductive DisplayResolution
  | R96x230
  | R96x252
  | R128x296
  | R160x296
deriving DecidableEq, Repr

/-- command.rs: data polarity for the VCOM and data interval setting. -/
inductive DataPolarity
  | BWOnly
  | RedOnly
  | Both
deriving DecidableEq, Repr

/-- command.rs: the sixteen discrete VCOM/data interval values. -/
inductive DataInterval
  | V2
  | V3
  | V4
  | V5
  | V6
  | V7
  | V8
  | V9
  | V10
  | V11
  | V12
  | V13
  | V14
  | V15
  | V16
  | V17
deriving DecidableEq, Repr

/-- command.rs: a command that can be issued to the controller (u8 arguments as Nat). -/
inductive Command
  | PanelSetting (resolution : DisplayResolution)
  | PowerSetting (vdh vdl vdhr : Nat)
  | PowerOff
  | PowerOn
  | BoosterSoftStart (phase_a phase_b phase_c : Nat)
  | DeepSleep
  | DataStop
  | DisplayRefresh
  | PLLControl (clock : Nat)
  | VCOMDataIntervalSetting (border_data : Nat) (data_polarity : DataPolarity)
      (interval : DataInterval)
  | ResolutionSetting (horiz : Nat) (vertical : Nat)
  | VCMDCSetting (vcom_dc : Nat)
deriving DecidableEq, Repr

/-- command.rs `Command::execute`: the one-byte opcode and the argument bytes the
`pack!` macro places into the fixed buffer before transmission.  The u8 shift
`border_data << 6` silently drops high bits, hence the `% 256`; all other byte
expressions stay below 256 whenever their u8 inputs do. -/
def Command.encode : Command → Nat × List Nat
  | .PanelSetting resolution =>
    let res : Nat :=
      match resolution with
      | .R96x230 => 0b00000000
      | .R96x252 => 0b01000000
      | .R128x296 => 0b10000000
      | .R160x296 => 0b11000000
    (0x0, [res ||| 0b001111])
  | .PowerSetting vdh vdl vdhr => (0x1, [0x3, 0x0, vdh, vdl, vdhr])
  | .PowerOff => (0x3, [])
  | .PowerOn => (0x4, [])
  | .BoosterSoftStart phase_a phase_b phase_c => (0x6, [phase_a, phase_b, phase_c])
  | .DeepSleep => (0x8, [0xa5])
  | .DataStop => (0x11, [])
  | .DisplayRefresh => (0x12, [])
  | .PLLControl clock => (0x30, [clock])
  | .VCOMDataIntervalSetting border_data data_polarity interval =>
    let vbd : Nat := (border_data <<< 6) % 256
    let ddx : Nat :=
      match data_polarity with
      | .BWOnly => 0b010000
      | .RedOnly => 0b100000
      | .Both => 0b110000
    let cdi : Nat :=
      match interval with
      | .V2 => 0b1111
      | .V3 => 0b1110
      | .V4 => 0b1101
      | .V5 => 0b1100
      | .V6 => 0b1011
      | .V7 => 0b1010
      | .V8 => 0b1001
      | .V9 => 0b1000
      | .V10 => 0b0111
      | .V11 => 0b0110
      | .V12 => 0b0101
      | .V13 => 0b0100
      | .V14 => 0b0011
      | .V15 => 0b0010
      | .V16 => 0b0001
      | .V17 => 0b0000
    (0x50, [vbd ||| ddx ||| cdi])
  | .ResolutionSetting horiz vertical =>
    let vres_hi := (vertical &&& 0x100) >>> 8
    let vres_lo := vertical &&& 0xFF
    (0x61, [horiz, vres_hi, vres_lo])
  | .VCMDCSetting vcom_dc => (0x82, [vcom_dc])

/-- command.rs `Command::execute`: the byte stream put on the wire, namely
`send_command(opcode)` followed by `send_data(args)` only when the argument
slice is non-empty. -/
def Command.transmittedBytes (c : Command) : List Nat :=
  let command := c.encode.1
  let data := c.encode.2
  if data.length = 0 then [command] else command :: data

/-- config.rs: display configuration, produced only by the builder. -/
structure Config where
  power_setting : Command
  booster_soft_start : Command
  panel_setting : Command
  pll : Command
  dimensions : Dimensions
  rotation : Rotation
deriving DecidableEq, Repr

/-- config.rs: builder for `Config`; `dimensions` starts out unset. -/
structure Builder where
  power_setting : Command
  booster_soft_start : Command
  panel_setting : Command
  pll : Command
  dimensions : Option Dimensions
  rotation : Rotation
deriving DecidableEq, Repr

/-- config.rs: error returned when a configuration is built without dimensions. -/
structure BuilderError
deriving DecidableEq, Repr

/-- config.rs `Builder::default` / `Builder::new`. -/
def Builder.new : Builder :=
  ⟨.PowerSetting 0x2b 0x2b 0x9, .BoosterSoftStart 0x17 0x17 0x17,
   .PanelSetting .R160x296, .PLLControl 0x29, none, .Rotate0⟩

/-- config.rs `Builder::dimensions`: the three `assert!` guards panic (modelled as
`none`) on columns not divisible by 8, rows above `MAX_GATE_OUTPUTS`, or columns
above `MAX_SOURCE_OUTPUTS`; otherwise the dimensions are recorded. -/
def Builder.withDimensions (b : Builder) (d : Dimensions) : Option Builder :=
  if d.cols % 8 = 0 ∧ d.rows ≤ MAX_GATE_OUTPUTS ∧ d.cols ≤ MAX_SOURCE_OUTPUTS then
    some { b with dimensions := some d }
  else
    none

/-- config.rs `Builder::rotation`. -/
def Builder.withRotation (b : Builder) (r : Rotation) : Builder :=
  { b with rotation := r }

/-- config.rs `Builder::build`: fails with a `BuilderError` exactly when no
dimensions were supplied. -/
def Builder.build (b : Builder) : Except BuilderError Config :=
  match b.dimensions with
  | some d => .ok ⟨b.power_setting, b.booster_soft_start, b.panel_setting, b.pll, d, b.rotation⟩
  | none => .error ⟨⟩

/-- graphics.rs `rotation` (modelled here as `rotationMap`): index into the plane byte array and bit position at
that index.  In-bounds coordinates (the regime of every claim about this
function) never underflow the u32 subtractions, so truncated `Nat` subtraction
agrees with the source. -/
def rotationMap (x y width height : Nat) (rot : Rotation) : Nat × Nat :=
  match rot with
  | .Rotate0 => (x / 8 + (width / 8) * y, 0x80 >>> (x % 8))
  | .Rotate90 => ((width - 1 - y) / 8 + (width / 8) * x, 0x01 <<< (y % 8))
  | .Rotate180 => ((width / 8) * height - 1 - (x / 8 + (width / 8) * y), 0x01 <<< (x % 8))
  | .Rotate270 => (y / 8 + (height - 1 - x) * (width / 8), 0x80 >>> (y % 8))

/-- The four rotation-mapping formulas exactly as §4.3 of the spec words them,
kept separate from `rotation` so the two can be compared (claim C1). -/
def rotationSpecMap (x y width height : Nat) (rot : Rotation) : Nat × Nat :=
  match rot with
  | .Rotate0 => (x / 8 + (width / 8) * y, 0x80 >>> (x % 8))
  | .Rotate90 => ((width - 1 - y) / 8 + (width / 8) * x, 0x01 <<< (y % 8))
  | .Rotate180 => ((width / 8) * height - 1 - (x / 8 + (width / 8) * y), 0x01 <<< (x % 8))
  | .Rotate270 => (y / 8 + (height - 1 - x) * (width / 8), 0x80 >>> (y % 8))

/-- graphics.rs `OriginDimensions::size`: the rotated logical (width, height);
rows and cols are swapped for the 90 and 270 degree orientations. -/
def rotatedSize (cols rows : Nat) (rot : Rotation) : Nat × Nat :=
  match rot with
  | .Rotate0 | .Rotate180 => (cols, rows)
  | .Rotate90 | .Rotate270 => (rows, cols)

/-- A coordinate within the rotated logical bounds returned by `size()`. -/
def inBoundsPix (x y cols rows : Nat) (rot : Rotation) : Prop :=
  x < (rotatedSize cols rows rot).1 ∧ y < (rotatedSize cols rows rot).2

instance (x y cols rows : Nat) (rot : Rotation) : Decidable (inBoundsPix x y cols rows rot) := by
  unfold inBoundsPix
  exact inferInstance

/-- graphics.rs `GraphicDisplay::set_pixel`: writes the bit pair selected by
`rotationMap` into the two plane buffers.  There is no bounds check on (x, y); the
slice indexing `black_buffer[index]` / `red_buffer[index]` panics when the
mapped index is out of range, modelled as `none`.  `!bit` on u8 is `255 ^^^ bit`. -/
def setPixel (blackBuffer redBuffer : List Nat) (cols rows : Nat) (rot : Rotation)
    (x y : Nat) (color : Color) : Option (List Nat × List Nat) :=
  let index := (rotationMap x y cols rows rot).1
  let bit := (rotationMap x y cols rows rot).2
  if index < blackBuffer.length ∧ index < redBuffer.length then
    match color with
    | .Black =>
      some (blackBuffer.set index (blackBuffer.getD index 0 &&& (255 ^^^ bit)),
        redBuffer.set index (redBuffer.getD index 0 ||| bit))
    | .White =>
      some (blackBuffer.set index (blackBuffer.getD index 0 ||| bit),
        redBuffer.set index (redBuffer.getD index 0 ||| bit))
    | .Red =>
      some (blackBuffer.set index (blackBuffer.getD index 0 ||| bit),
        redBuffer.set index (redBuffer.getD index 0 &&& (255 ^^^ bit)))
  else
    none

/-- Spec §4.3 pixel encoding, read back: the (black-plane bit, red-plane bit)
pair decoded to a color.  The fourth combination is never produced by the driver. -/
def decodePair : Bool → Bool → Option Color
  | false, true => some .Black
  | true, true => some .White
  | true, false => some .Red
  | false, false => none

/-- Read of the bit pair at the coordinate's mapped (byteIndex, bitMask) from the
in-host buffers, decoded per the spec's joint encoding (claim C6). -/
def getPixel (blackBuffer redBuffer : List Nat) (cols rows : Nat) (rot : Rotation)
    (x y : Nat) : Option Color :=
  let index := (rotationMap x y cols rows rot).1
  let bit := (rotationMap x y cols rows rot).2
  if index < blackBuffer.length ∧ index < redBuffer.length then
    decodePair (blackBuffer.getD index 0 &&& bit != 0) (redBuffer.getD index 0 &&& bit != 0)
  else
    none

/-- Observable effects driven through the `DisplayInterface` trait, at the
granularity at which display.rs and graphics.rs call it: one effect per
interface call.  Byte-level packing of individual commands is covered by
`Command.encode` / `Command.transmittedBytes`. -/
inductive DEffect
  | cmd (c : Command)
  | epdUpdate (layer nbytes : Nat)
  | sramEpdUpdate (layer nbytes startAddress : Nat)
  | delayMs (ms : Nat)
  | resetPulse
  | busyWait
deriving DecidableEq, Repr

/-- A transport oracle: which interface calls fail, and with what error.
`none` means the call succeeds. -/
def Oracle (E : Type) := DEffect → Option E

/-- Result of a driver operation: the `Result` value it returns together with
the trace of interface calls it performed. -/
def Res (E : Type) := Except E Unit × List DEffect

/-- Perform one fallible interface call under the oracle. -/
def stepE {E : Type} (ok : Oracle E) (eff : DEffect) : Res E :=
  (match ok eff with
   | none => .ok ()
   | some e => .error e,
   [eff])

/-- Rust `?` sequencing: run the second operation only when the first succeeded,
returning the first error verbatim otherwise. -/
def bindE {E : Type} (a : Res E) (b : Unit → Res E) : Res E :=
  match a with
  | (.error e, t) => (.error e, t)
  | (.ok _, t) =>
    let r := b ()
    (r.1, t ++ r.2)

/-- command.rs `Command::execute`, seen at display granularity: a single
transport effect carrying the command, failing as the oracle dictates. -/
def Command.exec {E : Type} (ok : Oracle E) (c : Command) : Res E :=
  stepE ok (.cmd c)

/-- An embedded-hal `delay_ms` call: infallible, no transport involved. -/
def delayStep {E : Type} (ms : Nat) : Res E :=
  (.ok (), [.delayMs ms])

/-- interface.rs `busy_wait`: infallible spin on the busy line. -/
def busyWaitStep {E : Type} : Res E :=
  (.ok (), [.busyWait])

/-- interface.rs `reset`: hardware reset-line pulsing; returns no `Result`. -/
def resetPulseStep {E : Type} : Res E :=
  (.ok (), [.resetPulse])

/-- display.rs `Display::init`: the fixed controller bring-up sequence, each
command chained with `?`. -/
def Display.init {E : Type} (ok : Oracle E) (cfg : Config) : Res E :=
  bindE (Command.exec ok cfg.power_setting) fun _ =>
  bindE (Command.exec ok cfg.booster_soft_start) fun _ =>
  bindE (Command.exec ok .PowerOn) fun _ =>
  bindE (delayStep 200) fun _ =>
  bindE (Command.exec ok cfg.panel_setting) fun _ =>
  bindE (Command.exec ok (.VCOMDataIntervalSetting 0x0 .Both .V10)) fun _ =>
  bindE (Command.exec ok cfg.pll) fun _ =>
  bindE (Command.exec ok (.VCMDCSetting 0xA)) fun _ =>
  bindE (delayStep 20) fun _ =>
  Command.exec ok (.ResolutionSetting cfg.dimensions.cols cfg.dimensions.rows)

/-- display.rs `Display::reset`: pulse the hardware reset line, then run `init`. -/
def Display.reset {E : Type} (ok : Oracle E) (cfg : Config) : Res E :=
  bindE resetPulseStep fun _ => Display.init ok cfg

/-- Modelled from the spec: `Display::signal_update` is called from graphics.rs
but its definition is absent from the sources.  Spec §4.2 says update, after
transmitting the planes, "issues DisplayRefresh, then blocks until the busy line
deasserts" — the same tail display.rs `Display::update` performs. -/
def Display.signalUpdate {E : Type} (ok : Oracle E) : Res E :=
  bindE (Command.exec ok .DisplayRefresh) fun _ => busyWaitStep

/-- display.rs `Display::update`: both planes via `epd_update_data` (each chained
with `?`), then DisplayRefresh, then busy wait. -/
def Display.update {E : Type} (ok : Oracle E) (rows cols : Nat) : Res E :=
  let buf_limit := rows * cols / 8
  bindE (stepE ok (.epdUpdate 0 buf_limit)) fun _ =>
  bindE (stepE ok (.epdUpdate 1 buf_limit)) fun _ =>
  bindE (Command.exec ok .DisplayRefresh) fun _ =>
  busyWaitStep

/-- graphics.rs `GraphicDisplay::update`: the two `epd_update_data` results are
discarded with `Result::ok()`, so a transport failure there does not abort the
operation and is not returned; the method then returns `signal_update`'s result. -/
def GraphicDisplay.update {E : Type} (ok : Oracle E) (rows cols : Nat) : Res E :=
  let buf_limit := rows * cols / 8
  let r0 := stepE ok (.epdUpdate 0 buf_limit)
  let r1 := stepE ok (.epdUpdate 1 buf_limit)
  let rs := Display.signalUpdate ok
  (rs.1, r0.2 ++ r1.2 ++ rs.2)

/-- The SRAM chip's byte-addressed memory. -/
def SramMem := Nat → Nat

/-- A single-byte SRAM write (interface.rs `sram_write` of a one-byte slice). -/
def sramWriteByte (mem : SramMem) (address v : Nat) : SramMem :=
  fun a => if a = address then v else mem a

/-- interface.rs `sram_erase` / `sram_clear`: fill `len` bytes from `address` with `val`. -/
def sramFill (mem : SramMem) (address len val : Nat) : SramMem :=
  fun a => if address ≤ a ∧ a < address + len then val else mem a

/-- graphics.rs `SramGraphicDisplay`: the display plus the SRAM region bookkeeping. -/
structure SramGraphicDisplay where
  rows : Nat
  cols : Nat
  rotation : Rotation
  buffer_size : Nat
  black_address : Nat
  red_address : Nat
deriving DecidableEq, Repr

/-- graphics.rs `SramGraphicDisplay::new`: the size computation
`((rows * cols as u16) as u32 / 8) as u16` with both u16 narrowings explicit;
black plane at offset 0, red plane at offset `buffer_size`. -/
def SramGraphicDisplay.new (rows cols : Nat) (rot : Rotation) : SramGraphicDisplay :=
  let sz := rows * cols % 65536 / 8 % 65536
  ⟨rows, cols, rot, sz, 0, sz⟩

/-- graphics.rs `SramGraphicDisplay::set_pixel`: read-modify-write of one byte in
each plane region; the display's own fields are never assigned. -/
def SramGraphicDisplay.setPixel (d : SramGraphicDisplay) (mem : SramMem) (x y : Nat)
    (color : Color) : SramGraphicDisplay × SramMem :=
  let index := (rotationMap x y d.cols d.rows d.rotation).1
  let bit := (rotationMap x y d.cols d.rows d.rotation).2
  let black := mem (index + d.black_address)
  let red := mem (index + d.red_address)
  let black' :=
    match color with
    | .Black => black &&& (255 ^^^ bit)
    | .White => black ||| bit
    | .Red => black ||| bit
  let red' :=
    match color with
    | .Black => red ||| bit
    | .White => red ||| bit
    | .Red => red &&& (255 ^^^ bit)
  (d, sramWriteByte (sramWriteByte mem (index + d.black_address) black')
    (index + d.red_address) red')

/-- graphics.rs `SramGraphicDisplay::clear`: fill each plane region with its
color byte via `sram_clear`; fields unchanged. -/
def SramGraphicDisplay.clear (d : SramGraphicDisplay) (mem : SramMem) (color : Color) :
    SramGraphicDisplay × SramMem :=
  let black :=
    match color with
    | .White => 0xFF
    | .Black => 0x00
    | .Red => 0xFF
  let red :=
    match color with
    | .White => 0xFF
    | .Black => 0xFF
    | .Red => 0x00
  (d, sramFill (sramFill mem d.black_address d.buffer_size black)
    d.red_address d.buffer_size red)

/-- graphics.rs `SramGraphicDisplay::update`: stream both plane regions from SRAM
to the controller (each chained with `?`), then `signal_update`; fields unchanged. -/
def SramGraphicDisplay.update {E : Type} (d : SramGraphicDisplay) (ok : Oracle E) :
    SramGraphicDisplay × Res E :=
  (d,
   bindE (stepE ok (.sramEpdUpdate 0 d.buffer_size d.black_address)) fun _ =>
   bindE (stepE ok (.sramEpdUpdate 1 d.buffer_size d.red_address)) fun _ =>
   Display.signalUpdate ok)

/-- The oracle under which every transport call succeeds. -/
def noFail {E : Type} : Oracle E := fun _ => none

/-- A transport whose `epd_update_data` call for layer 0 (the black plane) fails
while every other call succeeds (claim C3). -/
def epdFailOracle : Oracle Unit := fun eff =>
  match eff with
  | .epdUpdate 0 _ => some ()
  | _ => none

/-- The spec's polarity codes for bits 4-5 of the VCOM/data-interval byte. -/
def DataPolarity.specBits : DataPolarity → Nat
  | .BWOnly => 0b01
  | .RedOnly => 0b10
  | .Both => 0b11

/-- The position of an interval value in the enumeration V2, V3, ..., V17. -/
def DataInterval.idx : DataInterval → Nat
  | .V2 => 0
  | .V3 => 1
  | .V4 => 2
  | .V5 => 3
  | .V6 => 4
  | .V7 => 5
  | .V8 => 6
  | .V9 => 7
  | .V10 => 8
  | .V11 => 9
  | .V12 => 10
  | .V13 => 11
  | .V14 => 12
  | .V15 => 13
  | .V16 => 14
  | .V17 => 15

/-- The spec's resolution-class codes for bits 6-7 of the panel-setting byte. -/
def DisplayResolution.specClass : DisplayResolution → Nat
  | .R96x230 => 0b00
  | .R96x252 => 0b01
  | .R128x296 => 0b10
  | .R160x296 => 0b11

/-
Helper lemmas
-/

/-- Division bound used by every branch of the index-range argument. -/
theorem div8_lt (x W : Nat) (hx : x < 8 * W) : x / 8 < W :=
  (Nat.div_lt_iff_lt_mul (by norm_num)).mpr (by omega)

/-- `0x80 >> k` is the single bit `2 ^ (7 - k)` for `k < 8`. -/
theorem shiftRight128_eq (k : Nat) (hk : k < 8) : 128 >>> k = 2 ^ (7 - k) := by
  rw [Nat.shiftRight_eq_div_pow, show (128 : Nat) = 2 ^ 7 by norm_num,
    Nat.pow_div (by omega) (by norm_num)]

/-- `0x01 << k` is the single bit `2 ^ k`. -/
theorem shiftLeft1_eq (k : Nat) : 1 <<< k = 2 ^ k := by
  rw [Nat.shiftLeft_eq, one_mul]

/-- Whatever the rotation, the bit mask produced by `rotationMap` is a single
power of two below `2 ^ 8`. -/
theorem rotationMap_mask_pow (x y w h : Nat) (rot : Rotation) :
    ∃ j, j < 8 ∧ (rotationMap x y w h rot).2 = 2 ^ j := by
  have hx : x % 8 < 8 := Nat.mod_lt _ (by norm_num)
  have hy : y % 8 < 8 := Nat.mod_lt _ (by norm_num)
  cases rot
  · exact ⟨7 - x % 8, by omega, shiftRight128_eq _ hx⟩
  · exact ⟨y % 8, hy, shiftLeft1_eq _⟩
  · exact ⟨x % 8, hx, shiftLeft1_eq _⟩
  · exact ⟨7 - y % 8, by omega, shiftRight128_eq _ hy⟩

/-- For divisible-by-8 widths and in-bounds rotated coordinates, the byte index
produced by `rotationMap` lies inside a plane buffer of `rows * cols / 8` bytes. -/
theorem rotationMap_index_lt (x y w h : Nat) (rot : Rotation) (h8 : w % 8 = 0)
    (hb : inBoundsPix x y w h rot) : (rotationMap x y w h rot).1 < h * w / 8 := by
  obtain ⟨W, rfl⟩ : ∃ W, w = 8 * W := ⟨w / 8, by omega⟩
  have hdiv : 8 * W / 8 = W := by omega
  have hhw : h * (8 * W) / 8 = W * h := by
    rw [show h * (8 * W) = 8 * (W * h) by ring, Nat.mul_div_cancel_left _ (by norm_num)]
  obtain ⟨hbx, hby⟩ := hb
  cases rot
  all_goals simp only [rotationMap, rotatedSize] at hbx hby ⊢
  all_goals rw [hhw, hdiv]
  · -- Rotate0: x < 8 * W, y < h
    calc x / 8 + W * y < W + W * y := by have := div8_lt x W hbx; omega
      _ = W * (y + 1) := by ring
      _ ≤ W * h := Nat.mul_le_mul (Nat.le_refl W) (by omega)
  · -- Rotate90: x < h, y < 8 * W
    have h1 : (8 * W - 1 - y) / 8 < W := div8_lt _ _ (by omega)
    calc (8 * W - 1 - y) / 8 + W * x < W + W * x := by omega
      _ = W * (x + 1) := by ring
      _ ≤ W * h := Nat.mul_le_mul (Nat.le_refl W) (by omega)
  · -- Rotate180: the index is `W * h - 1 - s` with truncated subtraction
    have hp : 0 < W * h := Nat.mul_pos (by omega) (by omega)
    have h2 : W * h - 1 - (x / 8 + W * y) ≤ W * h - 1 := Nat.sub_le _ _
    omega
  · -- Rotate270: x < h, y < 8 * W
    obtain ⟨k, rfl⟩ : ∃ k, h = k + 1 := ⟨h - 1, by omega⟩
    have h1 : y / 8 < W := div8_lt _ _ hby
    have h2 : (k + 1 - 1 - x) * W ≤ k * W := Nat.mul_le_mul (by omega) (Nat.le_refl W)
    calc y / 8 + (k + 1 - 1 - x) * W < W + k * W := by omega
      _ = W * (k + 1) := by ring

/-- Setting a bit makes its `testBit` true. -/
theorem testBit_or_mask (a j : Nat) : (a ||| 2 ^ j).testBit j = true := by
  simp [Nat.testBit_or, Nat.testBit_two_pow_self]

/-- Clearing a bit through the u8 complement `255 ^^^ 2 ^ j` makes its `testBit`
false, for bit positions inside a byte. -/
theorem testBit_and_notMask (a j : Nat) (hj : j < 8) :
    (a &&& (255 ^^^ 2 ^ j)).testBit j = false := by
  rw [Nat.testBit_and, Nat.testBit_xor, show (255 : Nat) = 2 ^ 8 - 1 by norm_num,
    Nat.testBit_two_pow_sub_one]
  simp [hj, Nat.testBit_two_pow_self]

/-- The `byte & mask != 0` read of a single-bit mask agrees with `testBit`. -/
theorem and_mask_bne_zero (a j : Nat) : (a &&& 2 ^ j != 0) = a.testBit j := by
  rw [Nat.and_two_pow]
  cases h : a.testBit j <;> simp [h]

/-- `List.getD` immediately after `List.set` at an in-range index. -/
theorem getD_set_self (l : List Nat) (i v : Nat) (h : i < l.length) :
    (l.set i v).getD i 0 = v := by
  rw [List.getD_eq_getElem?_getD, List.getElem?_set_self h]
  rfl

/-
Claim theorems
-/

/-- C1: for every rotation and every (x, y) within the rotated logical bounds,
`rotationMap` returns exactly the (byteIndex, bitMask) pair given by the four
formulas of spec §4.3, and for width 104 / height 212 it reproduces the literal
Rotate0 and Rotate270 test vectors. -/
theorem rotationMap_matches_spec_formulas_and_vectors :
    (∀ x y w h rot, inBoundsPix x y w h rot →
      rotationMap x y w h rot = rotationSpecMap x y w h rot)
    ∧ rotationMap 0 0 104 212 .Rotate0 = (0, 0x80)
    ∧ rotationMap 103 0 104 212 .Rotate0 = (12, 0x1)
    ∧ rotationMap 103 211 104 212 .Rotate0 = (2755, 0x1)
    ∧ rotationMap 0 211 104 212 .Rotate0 = (2743, 0x80)
    ∧ rotationMap 0 0 104 212 .Rotate270 = (2743, 0x80)
    ∧ rotationMap 211 0 104 212 .Rotate270 = (0, 0x80)
    ∧ rotationMap 211 103 104 212 .Rotate270 = (12, 0x1)
    ∧ rotationMap 0 103 104 212 .Rotate270 = (2755, 0x1) := by
  refine ⟨fun x y w h rot _ => ?_, by decide, by decide, by decide, by decide,
    by decide, by decide, by decide, by decide⟩
  cases rot <;> rfl

/-- Witness for C1: a concrete in-bounds coordinate under Rotate90. -/
theorem rotationMap_matches_spec_witness :
    inBoundsPix 5 7 104 212 .Rotate90 ∧
      rotationMap 5 7 104 212 .Rotate90 = rotationSpecMap 5 7 104 212 .Rotate90 :=
  ⟨by decide, rotationMap_matches_spec_formulas_and_vectors.1 5 7 104 212 .Rotate90 (by decide)⟩

/-- C9: PanelSetting(res) transmits exactly the opcode 0x00 followed by one data
byte holding the resolution class in bits 6-7 OR'd with the fixed low bits
0b001111; in particular PanelSetting(R160x296) transmits exactly [0x00, 0xCF]. -/
theorem panelSetting_transmitted_bytes :
    (∀ res : DisplayResolution,
      (Command.PanelSetting res).transmittedBytes = [0x00, res.specClass <<< 6 ||| 0b001111])
    ∧ (Command.PanelSetting .R160x296).transmittedBytes = [0x00, 0xCF] := by
  refine ⟨fun res => ?_, by decide⟩
  cases res <;> decide

/-- C4: VCOMDataIntervalSetting(border, polarity, interval) with border < 4
transmits opcode 0x50 followed by exactly one data byte: border in bits 6-7, the
polarity code in bits 4-5 (BWOnly 0b01, RedOnly 0b10, Both 0b11), and the 4-bit
interval code 15 - index, i.e. the strictly decreasing inverse enumeration
mapping V2 -> 0b1111 down to V17 -> 0b0000. -/
theorem vcomDataIntervalSetting_transmitted_byte (border : Nat) (hb : border < 4)
    (pol : DataPolarity) (interval : DataInterval) :
    (Command.VCOMDataIntervalSetting border pol interval).transmittedBytes
      = [0x50, border <<< 6 ||| pol.specBits <<< 4 ||| (15 - interval.idx)] := by
  have hmod : border <<< 6 % 256 = border <<< 6 := by
    rw [Nat.shiftLeft_eq]
    exact Nat.mod_eq_of_lt (by omega)
  cases pol <;> cases interval <;>
    simp [Command.transmittedBytes, Command.encode, hmod, DataPolarity.specBits,
      DataInterval.idx]

/-- Witness for C4 at border 1, RedOnly, V10. -/
theorem vcomDataIntervalSetting_witness :
    1 < 4 ∧ (Command.VCOMDataIntervalSetting 1 .RedOnly .V10).transmittedBytes
      = [0x50, 1 <<< 6 ||| DataPolarity.RedOnly.specBits <<< 4 ||| (15 - DataInterval.V10.idx)] :=
  ⟨by decide, vcomDataIntervalSetting_transmitted_byte 1 (by decide) .RedOnly .V10⟩

/-- C5: under a transport that never fails, init performs exactly the mandated
command/delay sequence in this order and nothing else, and reset pulses the
hardware reset line and then runs init. -/
theorem init_sequence_exact (E : Type) (cfg : Config) :
    Display.init (noFail (E := E)) cfg =
      (.ok (),
       [.cmd cfg.power_setting, .cmd cfg.booster_soft_start, .cmd .PowerOn, .delayMs 200,
        .cmd cfg.panel_setting, .cmd (.VCOMDataIntervalSetting 0x0 .Both .V10),
        .cmd cfg.pll, .cmd (.VCMDCSetting 0xA), .delayMs 20,
        .cmd (.ResolutionSetting cfg.dimensions.cols cfg.dimensions.rows)])
    ∧ Display.reset (noFail (E := E)) cfg =
      (.ok (),
       [.resetPulse, .cmd cfg.power_setting, .cmd cfg.booster_soft_start, .cmd .PowerOn,
        .delayMs 200, .cmd cfg.panel_setting, .cmd (.VCOMDataIntervalSetting 0x0 .Both .V10),
        .cmd cfg.pll, .cmd (.VCMDCSetting 0xA), .delayMs 20,
        .cmd (.ResolutionSetting cfg.dimensions.cols cfg.dimensions.rows)]) :=
  ⟨rfl, rfl⟩

/-- C3 fails on the code: with a transport whose `epd_update_data` call for the
black plane fails, `GraphicDisplay::update` still returns `Ok` because the error
is discarded by `.ok()`, while `Display::update` on the same transport aborts
with the error, as the spec mandates for every operation. -/
theorem graphicDisplay_update_swallows_transport_error :
    epdFailOracle (.epdUpdate 0 3) = some ()
    ∧ (GraphicDisplay.update epdFailOracle 3 8).1 = .ok ()
    ∧ (Display.update epdFailOracle 3 8).1 = .error () :=
  ⟨rfl, rfl, rfl⟩

/-- C2 fails on the code: `set_pixel` performs no bounds check, so an
out-of-bounds coordinate either panics on slice indexing (the (0,3) case on a
3-row, 8-column Rotate0 display: mapped index 3 is outside the 3-byte planes) or
silently writes into an in-range byte (the (8,0) case modifies byte 1 of the
black plane), instead of being ignored. -/
theorem setPixel_out_of_bounds_not_clipped :
    ¬inBoundsPix 0 3 8 3 .Rotate0
    ∧ setPixel [0xFF, 0xFF, 0xFF] [0xFF, 0xFF, 0xFF] 8 3 .Rotate0 0 3 .Black = none
    ∧ ¬inBoundsPix 8 0 8 3 .Rotate0
    ∧ setPixel [0xFF, 0xFF, 0xFF] [0xFF, 0xFF, 0xFF] 8 3 .Rotate0 8 0 .Black
      = some ([0xFF, 0x7F, 0xFF], [0xFF, 0xFF, 0xFF]) :=
  ⟨by decide, by decide, by decide, by decide⟩

/-- C7: the builder rejects (its assertions panic on) every Dimensions value with
cols not divisible by 8, rows above 296, or cols above 160; building without
supplying Dimensions fails with the configuration error; and a builder given
valid Dimensions always builds a Config carrying them. -/
theorem builder_dimension_validation :
    (∀ (b : Builder) (d : Dimensions),
      (d.cols % 8 ≠ 0 ∨ d.rows > MAX_GATE_OUTPUTS ∨ d.cols > MAX_SOURCE_OUTPUTS) →
        b.withDimensions d = none)
    ∧ (∀ b : Builder, b.dimensions = none → b.build = .error ⟨⟩)
    ∧ Builder.new.build = .error ⟨⟩
    ∧ (∀ (b : Builder) (d : Dimensions), d.cols % 8 = 0 → d.rows ≤ MAX_GATE_OUTPUTS →
        d.cols ≤ MAX_SOURCE_OUTPUTS →
        ∃ b', b.withDimensions d = some b'
          ∧ ∃ cfg, b'.build = .ok cfg ∧ cfg.dimensions = d) := by
  refine ⟨?_, ?_, rfl, ?_⟩
  · intro b d hbad
    rw [Builder.withDimensions, if_neg]
    intro hc
    obtain ⟨h1, h2, h3⟩ := hc
    rcases hbad with h | h | h <;> omega
  · intro b h
    simp [Builder.build, h]
  · intro b d h1 h2 h3
    refine ⟨{ b with dimensions := some d }, ?_,
      ⟨b.power_setting, b.booster_soft_start, b.panel_setting, b.pll, d, b.rotation⟩, rfl, rfl⟩
    rw [Builder.withDimensions, if_pos ⟨h1, h2, h3⟩]

/-- Witness for C7: an oversized-rows rejection and a valid build. -/
theorem builder_dimension_validation_witness :
    ((300 : Nat) > MAX_GATE_OUTPUTS)
    ∧ Builder.new.withDimensions ⟨300, 8⟩ = none
    ∧ (∃ b', Builder.new.withDimensions ⟨212, 104⟩ = some b'
        ∧ ∃ cfg, b'.build = .ok cfg ∧ cfg.dimensions = ⟨212, 104⟩) :=
  ⟨by decide,
   builder_dimension_validation.1 Builder.new ⟨300, 8⟩ (Or.inr (Or.inl (by decide))),
   builder_dimension_validation.2.2.2 Builder.new ⟨212, 104⟩ (by decide) (by decide) (by decide)⟩

/-- C8: for valid Dimensions a fresh SramGraphicDisplay has black_address 0,
red_address equal to buffer_size, buffer_size equal to rows*cols/8, disjoint
plane regions, and none of update, clear or set_pixel ever changes those fields. -/
theorem sram_regions_invariant (rows cols : Nat) (rot : Rotation)
    (h8 : cols % 8 = 0) (hr : rows ≤ MAX_GATE_OUTPUTS) (hc : cols ≤ MAX_SOURCE_OUTPUTS) :
    (SramGraphicDisplay.new rows cols rot).black_address = 0
    ∧ (SramGraphicDisplay.new rows cols rot).red_address
        = (SramGraphicDisplay.new rows cols rot).buffer_size
    ∧ (SramGraphicDisplay.new rows cols rot).buffer_size = rows * cols / 8
    ∧ (∀ i, i < (SramGraphicDisplay.new rows cols rot).buffer_size →
        ¬((SramGraphicDisplay.new rows cols rot).red_address ≤ i
          ∧ i < (SramGraphicDisplay.new rows cols rot).red_address
              + (SramGraphicDisplay.new rows cols rot).buffer_size))
    ∧ (∀ (mem : SramMem) (x y : Nat) (c : Color),
        ((SramGraphicDisplay.new rows cols rot).setPixel mem x y c).1
          = SramGraphicDisplay.new rows cols rot)
    ∧ (∀ (mem : SramMem) (c : Color),
        ((SramGraphicDisplay.new rows cols rot).clear mem c).1
          = SramGraphicDisplay.new rows cols rot)
    ∧ (∀ (E : Type) (ok : Oracle E),
        ((SramGraphicDisplay.new rows cols rot).update ok).1
          = SramGraphicDisplay.new rows cols rot) := by
  have hlt : rows * cols < 65536 := by
    have hm := Nat.mul_le_mul hr hc
    simp only [MAX_GATE_OUTPUTS, MAX_SOURCE_OUTPUTS] at hm
    omega
  refine ⟨rfl, rfl, ?_, ?_, fun mem x y c => rfl, fun mem c => rfl, fun E ok => rfl⟩
  · show rows * cols % 65536 / 8 % 65536 = rows * cols / 8
    rw [Nat.mod_eq_of_lt hlt, Nat.mod_eq_of_lt (by omega)]
  · intro i hi hco
    simp only [SramGraphicDisplay.new] at hi hco
    omega

/-- Witness for C8: the 212-row, 104-column display. -/
theorem sram_regions_invariant_witness :
    (104 % 8 = 0 ∧ 212 ≤ MAX_GATE_OUTPUTS ∧ 104 ≤ MAX_SOURCE_OUTPUTS)
    ∧ (SramGraphicDisplay.new 212 104 .Rotate0).black_address = 0
    ∧ (SramGraphicDisplay.new 212 104 .Rotate0).red_address
        = (SramGraphicDisplay.new 212 104 .Rotate0).buffer_size
    ∧ (SramGraphicDisplay.new 212 104 .Rotate0).buffer_size = 212 * 104 / 8 :=
  ⟨⟨by decide, by decide, by decide⟩,
   (sram_regions_invariant 212 104 .Rotate0 (by decide) (by decide) (by decide)).1,
   (sram_regions_invariant 212 104 .Rotate0 (by decide) (by decide) (by decide)).2.1,
   (sram_regions_invariant 212 104 .Rotate0 (by decide) (by decide) (by decide)).2.2.1⟩

/-- C10: for every valid configuration and in-bounds rotated coordinate, the
mapped byte index is strictly below rows*cols/8, the mask is a single set bit,
and consequently set_pixel's indexing into equally sized plane buffers succeeds. -/
theorem rotationMap_index_in_range (rows cols x y : Nat) (rot : Rotation)
    (h8 : cols % 8 = 0) (hr : rows ≤ MAX_GATE_OUTPUTS) (hc : cols ≤ MAX_SOURCE_OUTPUTS)
    (hb : inBoundsPix x y cols rows rot) :
    (rotationMap x y cols rows rot).1 < rows * cols / 8
    ∧ (∃ j, j < 8 ∧ (rotationMap x y cols rows rot).2 = 2 ^ j)
    ∧ ∀ (blackBuffer redBuffer : List Nat) (c : Color),
        blackBuffer.length = rows * cols / 8 → redBuffer.length = rows * cols / 8 →
        setPixel blackBuffer redBuffer cols rows rot x y c ≠ none := by
  have hidx := rotationMap_index_lt x y cols rows rot h8 hb
  refine ⟨hidx, rotationMap_mask_pow x y cols rows rot, ?_⟩
  intro blackBuffer redBuffer c hlb hlr
  simp only [setPixel, hlb, hlr]
  rw [if_pos ⟨hidx, hidx⟩]
  cases c <;> simp

/-- Witness for C10 at the corner pixel of a 212x104 display. -/
theorem rotationMap_index_in_range_witness :
    (104 % 8 = 0 ∧ 212 ≤ MAX_GATE_OUTPUTS ∧ 104 ≤ MAX_SOURCE_OUTPUTS
      ∧ inBoundsPix 103 211 104 212 .Rotate0)
    ∧ (rotationMap 103 211 104 212 .Rotate0).1 < 212 * 104 / 8 :=
  ⟨⟨by decide, by decide, by decide, by decide⟩,
   (rotationMap_index_in_range 212 104 103 211 .Rotate0
     (by decide) (by decide) (by decide) (by decide)).1⟩

/-- C6: writing any of the three colors at any in-bounds coordinate under any
rotation and then decoding the bit pair at the mapped (byteIndex, bitMask) of
the two planes yields exactly the color written. -/
theorem setPixel_roundtrip (rows cols x y : Nat) (rot : Rotation) (color : Color)
    (blackBuffer redBuffer : List Nat) (h8 : cols % 8 = 0)
    (hb : inBoundsPix x y cols rows rot)
    (hlb : blackBuffer.length = rows * cols / 8) (hlr : redBuffer.length = rows * cols / 8) :
    ∃ black' red',
      setPixel blackBuffer redBuffer cols rows rot x y color = some (black', red')
      ∧ getPixel black' red' cols rows rot x y = some color := by
  obtain ⟨j, hj, hmask⟩ := rotationMap_mask_pow x y cols rows rot
  have hidx := rotationMap_index_lt x y cols rows rot h8 hb
  have hblen : (rotationMap x y cols rows rot).1 < blackBuffer.length := by omega
  have hrlen : (rotationMap x y cols rows rot).1 < redBuffer.length := by omega
  cases color
  case Black =>
    refine ⟨blackBuffer.set (rotationMap x y cols rows rot).1
        (blackBuffer.getD (rotationMap x y cols rows rot).1 0
          &&& (255 ^^^ (rotationMap x y cols rows rot).2)),
      redBuffer.set (rotationMap x y cols rows rot).1
        (redBuffer.getD (rotationMap x y cols rows rot).1 0
          ||| (rotationMap x y cols rows rot).2), ?_, ?_⟩
    · simp only [setPixel]
      rw [if_pos ⟨hblen, hrlen⟩]
    · simp only [getPixel, List.length_set]
      rw [if_pos ⟨hblen, hrlen⟩,
        getD_set_self _ _ _ hblen, getD_set_self _ _ _ hrlen, hmask,
        and_mask_bne_zero, and_mask_bne_zero, testBit_and_notMask _ _ hj, testBit_or_mask]
      rfl
  case White =>
    refine ⟨blackBuffer.set (rotationMap x y cols rows rot).1
        (blackBuffer.getD (rotationMap x y cols rows rot).1 0
          ||| (rotationMap x y cols rows rot).2),
      redBuffer.set (rotationMap x y cols rows rot).1
        (redBuffer.getD (rotationMap x y cols rows rot).1 0
          ||| (rotationMap x y cols rows rot).2), ?_, ?_⟩
    · simp only [setPixel]
      rw [if_pos ⟨hblen, hrlen⟩]
    · simp only [getPixel, List.length_set]
      rw [if_pos ⟨hblen, hrlen⟩,
        getD_set_self _ _ _ hblen, getD_set_self _ _ _ hrlen, hmask,
        and_mask_bne_zero, and_mask_bne_zero, testBit_or_mask, testBit_or_mask]
      rfl
  case Red =>
    refine ⟨blackBuffer.set (rotationMap x y cols rows rot).1
        (blackBuffer.getD (rotationMap x y cols rows rot).1 0
          ||| (rotationMap x y cols rows rot).2),
      redBuffer.set (rotationMap x y cols rows rot).1
        (redBuffer.getD (rotationMap x y cols rows rot).1 0
          &&& (255 ^^^ (rotationMap x y cols rows rot).2)), ?_, ?_⟩
    · simp only [setPixel]
      rw [if_pos ⟨hblen, hrlen⟩]
    · simp only [getPixel, List.length_set]
      rw [if_pos ⟨hblen, hrlen⟩,
        getD_set_self _ _ _ hblen, getD_set_self _ _ _ hrlen, hmask,
        and_mask_bne_zero, and_mask_bne_zero, testBit_or_mask, testBit_and_notMask _ _ hj]
      rfl

/-- Witness for C6: writing Black at the origin of a 3-row, 8-column display. -/
theorem setPixel_roundtrip_witness :
    (8 % 8 = 0 ∧ inBoundsPix 0 0 8 3 .Rotate0
      ∧ ([0, 0, 0] : List Nat).length = 3 * 8 / 8
      ∧ ([0, 0, 0] : List Nat).length = 3 * 8 / 8)
    ∧ ∃ black' red',
        setPixel [0, 0, 0] [0, 0, 0] 8 3 .Rotate0 0 0 .Black = some (black', red')
        ∧ getPixel black' red' 8 3 .Rotate0 0 0 = some .Black :=
  ⟨⟨by decide, by decide, by decide, by decide⟩,
   setPixel_roundtrip 3 8 0 0 .Rotate0 .Black [0, 0, 0] [0, 0, 0]
     (by decide) (by decide) (by decide) (by decide)⟩
